import Mathlib

/-! A shallow embedding of `s3manager.go` (package s3manager).

The Go package is a facade over an object-store SDK, the local filesystem and
the process environment.  The facade's own code is embedded as Lean functions;
its collaborators (AWS SDK, `os`, `path/filepath`, `github.com/frozentech/filesystem`)
are a parameter, `Platform σ`, that answers every call from an arbitrary state `σ`.

Conventions
* A Go `string` is a Lean `String`.  The only indexing the source does is
  `folder[len(folder)-1:] == "/"`; the byte `0x2F` never occurs inside a
  multi-byte UTF-8 sequence, so the last byte is `/` exactly when the last
  character is.
* A Go `error` is `Option String`: `none` is `nil`, `some msg` is an error whose
  `Error()` text is `msg` (that text is what `%v` and `%s` print).
* A run-time panic is the result `none` of a function returning `Option`: the
  out-of-range slice in `CompleteFilename`, and `session.Must` in `Connect` when
  no session can be built.  What a panicking run did before it stopped is not
  part of the result.
* Every call that leaves the facade is appended to `World.calls`, oldest first.
  Building a session is local work and is not recorded as a call.
-/

/-- Go `error`: `none` is `nil`, `some msg` carries the message. -/
abbrev GoError := Option String

/-- Receiver type `S3Manager` of s3manager.go. -/
structure S3Manager where
  Config : String
  Bucket : String
deriving DecidableEq, Repr

/-- An entry of `ListBucketsOutput.Buckets`; `Name` is a `*string` in the SDK. -/
structure s3.Bucket where
  Name : Option String
deriving DecidableEq, Repr

/-- The SDK helper `aws.StringValue`: the pointed-to string, or `""` for nil. -/
def StringValue (p : Option String) : String :=
  match p with
  | some v => v
  | none => ""

/-- Calls issued by the facade to its collaborators. -/
inductive Call where
  | ListBuckets
  | CreateBucket (bucket : String)
  | WaitUntilBucketExists (bucket : String)
  | DeleteObject (bucket key : String)
  | GetObject (bucket key path : String)
  | PutObject (bucket key path : String)
  | FsMkdir (path : String)
  | FsDelete (path : String)
  | OsCreate (path : String)
  | OsOpen (path : String)
  | FileClose (path : String)
deriving DecidableEq, Repr

/-- Calls that go to the remote object-store client. -/
def Call.isRemote : Call → Bool
  | .ListBuckets => true
  | .CreateBucket _ => true
  | .WaitUntilBucketExists _ => true
  | .DeleteObject _ _ => true
  | .GetObject _ _ _ => true
  | .PutObject _ _ _ => true
  | _ => false

/-- Calls that create (or truncate) a local file. -/
def Call.createsFile : Call → Option String
  | .OsCreate p => some p
  | _ => none

/-- The collaborators of the facade.  `σ` is the joint state of the process
environment, the filesystem and the remote service; each handler answers from
the current state and gives the next one.  Listing buckets and reading the
environment are reads. -/
structure Platform (σ : Type) where
  /-- `os.LookupEnv`. -/
  LookupEnv : σ → String → Option String
  /-- The error of `session.NewSessionWithOptions`, `nil` when a session is built. -/
  NewSession : σ → GoError
  /-- `service.ListBuckets(nil)`. -/
  ListBuckets : σ → Except String (List s3.Bucket)
  /-- `service.CreateBucket`. -/
  CreateBucket : String → σ → GoError × σ
  /-- `service.WaitUntilBucketExists`. -/
  WaitUntilBucketExists : String → σ → GoError × σ
  /-- `service.DeleteObject` with bucket and key. -/
  DeleteObject : String → String → σ → GoError × σ
  /-- `downloader.Download` with bucket, key and the local file written to. -/
  GetObject : String → String → String → σ → GoError × σ
  /-- `uploader.Upload` with bucket, key and the local file read from. -/
  PutObject : String → String → String → σ → GoError × σ
  /-- `filesystem.Mkdir`. -/
  FsMkdir : String → σ → GoError × σ
  /-- `filesystem.Delete`; the facade drops its result. -/
  FsDelete : String → σ → σ
  /-- `os.Create`. -/
  OsCreate : String → σ → GoError × σ
  /-- `os.Open`. -/
  OsOpen : String → σ → GoError × σ
  /-- `(*os.File).Close` on an open file; the facade drops its result. -/
  FileClose : String → σ → σ
  /-- `filepath.Dir`. -/
  Dir : String → String
  /-- The `%q` verb of `fmt`. -/
  Quote : String → String

/-- State of the collaborators together with the calls issued so far. -/
structure World (σ : Type) where
  state : σ
  calls : List Call
deriving DecidableEq, Repr

/-- Record call `c` and move to state `s`. -/
def World.issue {σ : Type} (w : World σ) (c : Call) (s : σ) : World σ :=
  { state := s, calls := w.calls ++ [c] }

/-- `os.Getenv`: the value of the variable, `""` when it is unset. -/
def Getenv (env : String → Option String) (key : String) : String :=
  match env key with
  | some v => v
  | none => ""

/-- Go slice expression `s[i:]`; out of range (`none`) unless `0 ≤ i ≤ len(s)`. -/
def sliceFrom (s : String) (i : Int) : Option String :=
  if 0 ≤ i ∧ i ≤ (s.length : Int) then some (s.drop i.toNat) else none

/-- The string has two adjacent separators `//` somewhere. -/
def hasDoubleSep (s : String) : Prop := ['/', '/'] <:+: s.data

instance (s : String) : Decidable (hasDoubleSep s) := by
  unfold hasDoubleSep; infer_instance

/-- The string ends in the separator `/`. -/
def endsWithSep (s : String) : Prop := ['/'] <:+ s.data

instance (s : String) : Decidable (endsWithSep s) := by
  unfold endsWithSep; infer_instance

/-- The string starts with the separator `/`. -/
def startsWithSep (s : String) : Prop := ['/'] <+: s.data

instance (s : String) : Decidable (startsWithSep s) := by
  unfold startsWithSep; infer_instance

namespace S3Manager

/-- The slice literal `EnviromentVariables` of `LoadConfig` (spelling of the source). -/
def EnviromentVariables : List String :=
  ["AWS_ACCESS_KEY_ID", "AWS_SECRET_ACCESS_KEY", "AWS_REGION",
   "AWS_DEFAULT_BUCKET", "APP_CONFIG_FOLDER"]

/-- The `for _, env := range EnviromentVariables` loop of `LoadConfig`: the
error of the first variable whose value is empty, `nil` when the loop finishes. -/
def LoadConfig.loop (getenv : String → String) : List String → GoError
  | [] => none
  | env :: rest =>
    if getenv env = "" then
      some ("environment variable " ++ env ++ " is missing")
    else LoadConfig.loop getenv rest

/-- `func (a *S3Manager) LoadConfig() error`; the pointer receiver is returned
next to the error. -/
def LoadConfig (a : S3Manager) (env : String → Option String) : GoError × S3Manager :=
  match LoadConfig.loop (Getenv env) EnviromentVariables with
  | some err => (some err, a)
  | none =>
    (none, { Config := Getenv env "APP_CONFIG_FOLDER",
             Bucket := Getenv env "AWS_DEFAULT_BUCKET" })

/-- `func (a S3Manager) CompleteFilename(filename string) string`. -/
def CompleteFilename (a : S3Manager) (filename : String) : Option String :=
  let folder := if a.Config.length = 0 then "config" else a.Config
  match sliceFrom folder ((folder.length : Int) - 1) with
  | none => none
  | some last =>
    if last = "/" then some (folder ++ filename)
    else some (folder ++ "/" ++ filename)

/-- `func (a S3Manager) Connect() *session.Session`: `session.Must` panics on
the error of `session.NewSessionWithOptions`. -/
def Connect {σ : Type} (_ : S3Manager) (P : Platform σ) (w : World σ) : Option Unit :=
  match P.NewSession w.state with
  | some _ => none
  | none => some ()

/-- `func (a S3Manager) NewService() *s3.S3`: a client on the session of `Connect`. -/
def NewService {σ : Type} (a : S3Manager) (P : Platform σ) (w : World σ) : Option Unit :=
  a.Connect P w

/-- The `for _, b := range buckets.Buckets` loop of `BucketExist`. -/
def BucketExist.loop (a : S3Manager) : List s3.Bucket → Bool
  | [] => false
  | b :: rest =>
    if StringValue b.Name = a.Bucket then true else BucketExist.loop a rest

/-- `func (a S3Manager) BucketExist() (bool, error)`. -/
def BucketExist {σ : Type} (a : S3Manager) (P : Platform σ) (w : World σ) :
    Option ((Bool × GoError) × World σ) :=
  match a.NewService P w with
  | none => none
  | some _ =>
    let w1 := w.issue Call.ListBuckets w.state
    match P.ListBuckets w.state with
    | .error err => some ((false, some ("Unable to list buckets, " ++ err)), w1)
    | .ok buckets =>
      if BucketExist.loop a buckets then some ((true, none), w1)
      else some ((false, some ("Unable to find " ++ a.Bucket)), w1)

/-- `func (a S3Manager) CreateBucket() error`. -/
def CreateBucket {σ : Type} (a : S3Manager) (P : Platform σ) (w : World σ) :
    Option (GoError × World σ) :=
  match a.BucketExist P w with
  | none => none
  | some r =>
    if r.1.1 then some (none, r.2)
    else
      match a.NewService P r.2 with
      | none => none
      | some _ =>
        let c := P.CreateBucket a.Bucket r.2.state
        let w2 := r.2.issue (Call.CreateBucket a.Bucket) c.2
        match c.1 with
        | some err =>
          some (some ("Unable to create bucket " ++ P.Quote a.Bucket ++ ", " ++ err), w2)
        | none =>
          let d := P.WaitUntilBucketExists a.Bucket w2.state
          let w3 := w2.issue (Call.WaitUntilBucketExists a.Bucket) d.2
          match d.1 with
          | some _ =>
            some (some ("Error occurred while waiting for bucket to be created, "
              ++ a.Bucket), w3)
          | none => some (none, w3)

/-- `func (a S3Manager) Delete(filename string) (bool, error)`. -/
def Delete {σ : Type} (a : S3Manager) (P : Platform σ) (filename : String) (w : World σ) :
    Option ((Bool × GoError) × World σ) :=
  match a.CompleteFilename filename with
  | none => none
  | some localFilename =>
    let w1 := w.issue (Call.FsDelete localFilename) (P.FsDelete localFilename w.state)
    match a.NewService P w1 with
    | none => none
    | some _ =>
      let d := P.DeleteObject a.Bucket filename w1.state
      let w2 := w1.issue (Call.DeleteObject a.Bucket filename) d.2
      match d.1 with
      | some err =>
        some ((false, some ("Unable to delete file " ++ filename ++ ", " ++ err)), w2)
      | none => some ((true, none), w2)

/-- The head of `Download`: the local destination, and the world after the
directory of a resolved path has been made. -/
def Download.target {σ : Type} (a : S3Manager) (P : Platform σ) (filename : String)
    (args : List String) (w : World σ) : Option (String × World σ) :=
  match args with
  | arg0 :: _ => some (arg0, w)
  | [] =>
    match a.CompleteFilename filename with
    | none => none
    | some localFilename =>
      let m := P.FsMkdir (P.Dir localFilename) w.state
      some (localFilename, w.issue (Call.FsMkdir (P.Dir localFilename)) m.2)

/-- `func (a S3Manager) Download(filename string, args ...string) (bool, error)`. -/
def Download {σ : Type} (a : S3Manager) (P : Platform σ) (filename : String)
    (args : List String) (w : World σ) : Option ((Bool × GoError) × World σ) :=
  match Download.target a P filename args w with
  | none => none
  | some (localFilename, w1) =>
    let c := P.OsCreate localFilename w1.state
    let w2 := w1.issue (Call.OsCreate localFilename) c.2
    match c.1 with
    | some err =>
      some ((false, some ("Unable to create file " ++ localFilename ++ ", " ++ err)), w2)
    | none =>
      match a.Connect P w2 with
      | none => none
      | some _ =>
        let g := P.GetObject a.Bucket filename localFilename w2.state
        let w3 := w2.issue (Call.GetObject a.Bucket filename localFilename) g.2
        let w4 := w3.issue (Call.FileClose localFilename) (P.FileClose localFilename w3.state)
        match g.1 with
        | some err =>
          some ((false, some ("Unable to download file " ++ filename ++ ", " ++ err)), w4)
        | none => some ((true, none), w4)

/-- `func (a S3Manager) Upload(source string, destination string) (bool, error)`. -/
def Upload {σ : Type} (a : S3Manager) (P : Platform σ) (source destination : String)
    (w : World σ) : Option ((Bool × GoError) × World σ) :=
  match a.Connect P w with
  | none => none
  | some _ =>
    let o := P.OsOpen source w.state
    let w1 := w.issue (Call.OsOpen source) o.2
    match o.1 with
    | some err => some ((false, some ("Unable to open file " ++ source ++ ", " ++ err)), w1)
    | none =>
      let u := P.PutObject a.Bucket destination source w1.state
      let w2 := w1.issue (Call.PutObject a.Bucket destination source) u.2
      let w3 := w2.issue (Call.FileClose source) (P.FileClose source w2.state)
      match u.1 with
      | some err =>
        some ((false, some ("Unable to upload " ++ source ++ " to " ++ a.Bucket ++ ", "
          ++ err)), w3)
      | none => some ((true, none), w3)

/-- `func (a *S3Manager) Init() error`. -/
def Init {σ : Type} (a : S3Manager) (P : Platform σ) (w : World σ) :
    Option (GoError × World σ) :=
  let m := P.FsMkdir a.Config w.state
  let w1 := w.issue (Call.FsMkdir a.Config) m.2
  match m.1 with
  | some err => some (some err, w1)
  | none => a.CreateBucket P w1

/-- `func (a *S3Manager) Begin() error`; the pointer receiver is returned next
to the error. -/
def Begin {σ : Type} (a : S3Manager) (P : Platform σ) (w : World σ) :
    Option ((GoError × S3Manager) × World σ) :=
  let l := a.LoadConfig (P.LookupEnv w.state)
  match l.1 with
  | some err => some ((some err, l.2), w)
  | none =>
    match l.2.Init P w with
    | none => none
    | some i => some ((i.1, l.2), i.2)

end S3Manager

/-! ## A simulated platform

The theorems below hold for every `Platform`.  To run the facade on concrete
inputs, `Sim.platform` is a small in-memory filesystem and object store, with
the lexical path functions of Go's `path/filepath` for Unix paths. -/

namespace filepath

/-- The elements of a path, split at every separator. -/
def elements : List Char → List (List Char)
  | [] => [[]]
  | c :: cs =>
    if c = '/' then [] :: elements cs
    else
      match elements cs with
      | [] => [[c]]
      | e :: es => (c :: e) :: es

/-- The rewriting of `Clean`: drop empty and `.` elements, cancel an inner `..`
against the element before it, drop a `..` that begins a rooted path.  `out`
holds the elements kept so far, last one first. -/
def reduce (rooted : Bool) : List (List Char) → List (List Char) → List (List Char)
  | out, [] => out.reverse
  | out, e :: es =>
    if e = [] ∨ e = ['.'] then reduce rooted out es
    else if e = ['.', '.'] then
      match out with
      | [] => if rooted then reduce rooted [] es else reduce rooted [e] es
      | top :: below =>
        if top = ['.', '.'] then reduce rooted (e :: out) es
        else reduce rooted below es
    else reduce rooted (e :: out) es

/-- `filepath.Clean`. -/
def Clean (path : String) : String :=
  let rooted : Bool := path.data.head? = some '/'
  let body := String.mk (List.intercalate ['/'] (reduce rooted [] (elements path.data)))
  if rooted then "/" ++ body
  else if body = "" then "." else body

/-- `filepath.Dir`: `Clean` of the path up to and including its last separator. -/
def Dir (path : String) : String :=
  Clean (String.mk (path.data.reverse.dropWhile (fun c => c ≠ '/')).reverse)

end filepath

/-- State of the simulated platform. -/
structure Sim where
  /-- The environment variables that are set. -/
  env : List (String × String)
  /-- The error of building a session (an unreadable shared configuration,
  say), when there is one. -/
  session : Option String
  /-- The error of every remote call, when the service cannot be reached
  (an invalid region, say). -/
  down : Option String
  /-- The buckets of the remote service. -/
  buckets : List String
  /-- The objects of the remote service, as bucket and key. -/
  objects : List (String × String)
  /-- The directories of the filesystem, as cleaned paths; `.` always exists. -/
  dirs : List String
  /-- The files of the filesystem, as cleaned paths. -/
  files : List String
deriving DecidableEq, Repr

namespace Sim

/-- The path names a directory. -/
def isDir (s : Sim) (path : String) : Bool :=
  decide (filepath.Clean path = ".") || decide (filepath.Clean path ∈ s.dirs)

/-- Answer of a remote call on bucket `bucket`: the service is reachable, the
SDK accepts the bucket name (not empty), and the bucket exists. -/
def reach (s : Sim) (bucket : String) : GoError :=
  match s.down with
  | some err => some err
  | none =>
    if bucket = "" then some "InvalidParameter: minimum field size of 1, Bucket"
    else if bucket ∈ s.buckets then none
    else some "NoSuchBucket: The specified bucket does not exist"

/-- The simulated collaborators. -/
def platform : Platform Sim where
  LookupEnv := fun s key => s.env.lookup key
  NewSession := fun s => s.session
  ListBuckets := fun s =>
    match s.down with
    | some err => .error err
    | none => .ok (s.buckets.map (fun name => { Name := some name }))
  CreateBucket := fun bucket s =>
    match s.down with
    | some err => (some err, s)
    | none =>
      if bucket = "" then (some "InvalidParameter: minimum field size of 1, Bucket", s)
      else if bucket ∈ s.buckets then (some "BucketAlreadyOwnedByYou", s)
      else (none, { s with buckets := s.buckets ++ [bucket] })
  WaitUntilBucketExists := fun bucket s => (s.reach bucket, s)
  DeleteObject := fun bucket key s =>
    match s.reach bucket with
    | some err => (some err, s)
    | none => (none, { s with objects := s.objects.filter (fun o => o ≠ (bucket, key)) })
  GetObject := fun bucket key _ s =>
    match s.reach bucket with
    | some err => (some err, s)
    | none =>
      if (bucket, key) ∈ s.objects then (none, s)
      else (some "NoSuchKey: The specified key does not exist.", s)
  PutObject := fun bucket key _ s =>
    match s.reach bucket with
    | some err => (some err, s)
    | none => (none, { s with objects := s.objects ++ [(bucket, key)] })
  FsMkdir := fun path s =>
    if path = "" then (some "mkdir : no such file or directory", s)
    else if s.isDir path then (none, s)
    else (none, { s with dirs := s.dirs ++ [filepath.Clean path] })
  FsDelete := fun path s =>
    { s with files := s.files.filter (fun f => f ≠ filepath.Clean path) }
  OsCreate := fun path s =>
    if s.isDir path then (some ("open " ++ path ++ ": is a directory"), s)
    else if s.isDir (filepath.Dir path) then
      (none, { s with files := s.files.filter (fun f => f ≠ filepath.Clean path)
                                ++ [filepath.Clean path] })
    else (some ("open " ++ path ++ ": no such file or directory"), s)
  OsOpen := fun path s =>
    if filepath.Clean path ∈ s.files then (none, s)
    else (some ("open " ++ path ++ ": no such file or directory"), s)
  FileClose := fun _ s => s
  Dir := filepath.Dir
  Quote := fun v => "\"" ++ v ++ "\""

/-- The environment of the test suite. -/
def testEnv : List (String × String) :=
  [("AWS_ACCESS_KEY_ID", "id"), ("AWS_SECRET_ACCESS_KEY", "secret"),
   ("AWS_REGION", "ap-southeast-1"), ("AWS_DEFAULT_BUCKET", "tester-bucket"),
   ("APP_CONFIG_FOLDER", "tester-config")]

/-- A world in which the bucket and the folder of the test suite exist. -/
def start : World Sim :=
  { state :=
      { env := testEnv, session := none, down := none, buckets := ["tester-bucket"],
        objects := [("tester-bucket", "test-file.json"), ("tester-bucket", "../x")],
        dirs := ["tester-config"], files := ["tester-config/test-file.json"] },
    calls := [] }

end Sim
/-! # Theorems -/

/-! ## Path resolution: `CompleteFilename` -/

/-- On a string with last character `c`, `s[len(s)-1:]` is in range and is the
one-character string `c`. -/
theorem sliceFrom_last (s : String) (ys : List Char) (c : Char) (h : s.data = ys ++ [c]) :
    sliceFrom s ((s.length : Int) - 1) = some (String.mk [c]) := by
  have hl : s.length = ys.length + 1 := by
    show s.data.length = _
    rw [h]; simp
  unfold sliceFrom
  have h1 : (0 : Int) ≤ (s.length : Int) - 1 ∧ (s.length : Int) - 1 ≤ (s.length : Int) := by
    rw [hl]; constructor <;> push_cast <;> omega
  rw [if_pos h1]
  have h2 : ((s.length : Int) - 1).toNat = ys.length := by
    rw [hl]; push_cast; simp
  rw [h2, String.drop_eq, h]
  simp

/-- A non-empty string splits into its front and its last character. -/
theorem string_exists_last (s : String) (h : s ≠ "") : ∃ ys c, s.data = ys ++ [c] := by
  have hd : s.data ≠ [] := by
    intro hd
    exact h (String.ext hd)
  exact ⟨s.data.dropLast, s.data.getLast hd, (List.dropLast_append_getLast hd).symm⟩

theorem string_length_eq_zero (s : String) : s.length = 0 ↔ s = "" := by
  constructor
  · intro h
    exact String.ext (List.length_eq_zero.mp h)
  · intro h
    subst h
    rfl

theorem endsWithSep_of_last (s : String) (ys : List Char) (c : Char) (h : s.data = ys ++ [c]) :
    endsWithSep s ↔ c = '/' := by
  unfold endsWithSep
  rw [h]
  constructor
  · rintro ⟨t, ht⟩
    have := List.append_inj' ht rfl
    simpa using this.2.symm
  · intro hc
    subst hc
    exact List.suffix_append ys ['/']

/-- The folder `CompleteFilename` works with is never empty. -/
theorem folder_ne_empty (config : String) :
    (if config.length = 0 then "config" else config) ≠ "" := by
  by_cases h : config.length = 0
  · rw [if_pos h]; decide
  · rw [if_neg h]
    intro h2
    exact h ((string_length_eq_zero config).mpr h2)

/-- `CompleteFilename` in closed form: it always returns, appending the filename
to the folder with exactly one separator added when the folder has none at its end. -/
theorem completeFilename_eq (a : S3Manager) (filename : String) :
    a.CompleteFilename filename =
      some (if endsWithSep (if a.Config.length = 0 then "config" else a.Config)
            then (if a.Config.length = 0 then "config" else a.Config) ++ filename
            else (if a.Config.length = 0 then "config" else a.Config) ++ "/" ++ filename) := by
  unfold S3Manager.CompleteFilename
  obtain ⟨ys, c, hyc⟩ := string_exists_last _ (folder_ne_empty a.Config)
  generalize (if a.Config.length = 0 then "config" else a.Config) = folder at hyc ⊢
  simp only
  rw [sliceFrom_last folder ys c hyc]
  simp only
  by_cases hc : c = '/'
  · have he : endsWithSep folder := (endsWithSep_of_last folder ys c hyc).mpr hc
    subst hc
    rw [if_pos he, if_pos rfl]
  · have he : ¬ endsWithSep folder := fun h => hc ((endsWithSep_of_last folder ys c hyc).mp h)
    have : ¬ (String.mk [c] = "/") := by
      intro h2
      apply hc
      have := congrArg String.data h2
      simpa using this
    rw [if_neg this, if_neg he]

/-- Where `//` can sit in a concatenation: inside the left part, inside the
right part, or across the seam. -/
theorem doubleSep_append (xs ys : List Char) (h : ['/', '/'] <:+: xs ++ ys) :
    ['/', '/'] <:+: xs ∨ ['/', '/'] <:+: ys ∨ (['/'] <:+ xs ∧ ['/'] <+: ys) := by
  induction xs with
  | nil => right; left; simpa using h
  | cons x xs ih =>
    rw [List.cons_append, List.infix_cons_iff] at h
    rcases h with h | h
    · rw [List.prefix_cons_iff] at h
      rcases h with h | ⟨t, ht, hpre⟩
      · exact absurd h (by simp)
      · have hx : x = '/' := by
          have := List.cons_eq_cons.mp ht
          exact this.1.symm
        have htt : t = ['/'] := by
          have := List.cons_eq_cons.mp ht
          exact this.2.symm
        subst hx htt
        cases xs with
        | nil =>
          right; right
          exact ⟨List.suffix_refl _, by simpa using hpre⟩
        | cons z zs =>
          left
          rw [List.cons_append, List.prefix_cons_iff] at hpre
          rcases hpre with hpre | ⟨t2, ht2, _⟩
          · exact absurd hpre (by simp)
          · have hz : z = '/' := (List.cons_eq_cons.mp ht2).1.symm
            subst hz
            exact (List.prefix_append ['/', '/'] zs).isInfix
    · rcases ih h with h1 | h1 | ⟨h1, h2⟩
      · left
        exact List.infix_cons h1
      · right; left; exact h1
      · right; right
        exact ⟨h1.trans (List.suffix_cons x xs), h2⟩

/-- C1: for a non-empty config folder `F` that does not end in `/`, the manager
configured with `F` and the manager configured with `F ++ "/"` resolve every
filename to the same path, `F ++ "/" ++ filename`. -/
theorem completeFilename_trailing_separator (F filename B B2 : String)
    (hne : F ≠ "") (hns : ¬ endsWithSep F) :
    S3Manager.CompleteFilename (S3Manager.mk F B) filename = some (F ++ "/" ++ filename) ∧
    S3Manager.CompleteFilename (S3Manager.mk (F ++ "/") B2) filename
      = some (F ++ "/" ++ filename) := by
  have hF : ¬ F.length = 0 := fun h => hne ((string_length_eq_zero F).mp h)
  have hF2 : ¬ (F ++ "/").length = 0 := by
    rw [String.length_append]
    omega
  have he2 : endsWithSep (F ++ "/") := by
    unfold endsWithSep
    rw [String.data_append]
    exact List.suffix_append F.data ['/']
  constructor
  · rw [completeFilename_eq]
    simp only [if_neg hF, if_neg hns]
  · rw [completeFilename_eq]
    simp only [if_neg hF2, if_pos he2]

/-- The test of the repository: `tester-config` and `tester-config/` both give
`tester-config/test-filename`. -/
theorem completeFilename_trailing_separator_witness :
    "tester-config" ≠ "" ∧ ¬ endsWithSep "tester-config" ∧
    S3Manager.CompleteFilename (S3Manager.mk "tester-config" "tester-bucket") "test-filename"
      = some "tester-config/test-filename" ∧
    S3Manager.CompleteFilename (S3Manager.mk "tester-config/" "tester-bucket") "test-filename"
      = some "tester-config/test-filename" :=
  ⟨by decide, by decide,
   completeFilename_trailing_separator "tester-config" "test-filename" "tester-bucket"
     "tester-bucket" (by decide) (by decide)⟩

/-- C10: with an empty `Config` the folder defaults to `config`, so the result
is `"config/" ++ filename`; the slice `folder[len(folder)-1:]` is in range for
every `Config`, being taken on a non-empty folder, and `CompleteFilename` returns a path for every manager and
every filename. -/
theorem completeFilename_total (a : S3Manager) (filename : String) :
    S3Manager.CompleteFilename (S3Manager.mk "" a.Bucket) filename
      = some ("config/" ++ filename) ∧
    (if a.Config.length = 0 then "config" else a.Config) ≠ "" ∧
    (∃ last, sliceFrom (if a.Config.length = 0 then "config" else a.Config)
        (((if a.Config.length = 0 then "config" else a.Config).length : Int) - 1)
      = some last) ∧
    (∃ path, a.CompleteFilename filename = some path) := by
  refine ⟨?_, folder_ne_empty a.Config, ?_, ?_⟩
  · rw [completeFilename_eq]
    have h0 : (S3Manager.mk "" a.Bucket).Config.length = 0 := rfl
    have hc : ¬ endsWithSep "config" := by decide
    simp only [h0, if_true, if_neg hc]
    rfl
  · obtain ⟨ys, c, hyc⟩ := string_exists_last _ (folder_ne_empty a.Config)
    exact ⟨_, sliceFrom_last _ ys c hyc⟩
  · exact ⟨_, completeFilename_eq a filename⟩

/-- C9: when neither the config folder nor the key contains `//` and the key
does not start with `/`, the resolved path contains no `//`. -/
theorem completeFilename_no_double_separator (a : S3Manager) (key : String)
    (hc : ¬ hasDoubleSep a.Config) (hk0 : ¬ startsWithSep key) (hk : ¬ hasDoubleSep key) :
    ∃ path, a.CompleteFilename key = some path ∧ ¬ hasDoubleSep path := by
  refine ⟨_, completeFilename_eq a key, ?_⟩
  have hf : ¬ hasDoubleSep (if a.Config.length = 0 then "config" else a.Config) := by
    by_cases h : a.Config.length = 0
    · rw [if_pos h]; decide
    · rw [if_neg h]; exact hc
  generalize (if a.Config.length = 0 then "config" else a.Config) = folder at hf ⊢
  unfold hasDoubleSep startsWithSep at *
  by_cases he : endsWithSep folder
  · rw [if_pos he, String.data_append]
    intro h
    rcases doubleSep_append _ _ h with h1 | h1 | ⟨_, h2⟩
    · exact hf h1
    · exact hk h1
    · exact hk0 h2
  · rw [if_neg he, String.data_append, String.data_append]
    intro h
    rw [List.append_assoc] at h
    rcases doubleSep_append _ _ h with h1 | h1 | ⟨h1, _⟩
    · exact hf h1
    · have hs : "/".data = ['/'] := rfl
      rw [hs, List.singleton_append, List.infix_cons_iff, List.prefix_cons_iff] at h1
      rcases h1 with (h1 | ⟨t, ht, hpre⟩) | h1
      · exact absurd h1 (by simp)
      · have : t = ['/'] := (List.cons_eq_cons.mp ht).2.symm
        subst this
        exact hk0 hpre
      · exact hk h1
    · exact he h1

/-- A folder with one trailing separator and a nested key. -/
theorem completeFilename_no_double_separator_witness :
    ¬ hasDoubleSep "tester-config/" ∧ ¬ startsWithSep "a/b.json" ∧ ¬ hasDoubleSep "a/b.json" ∧
    ∃ path, S3Manager.CompleteFilename (S3Manager.mk "tester-config/" "tester-bucket") "a/b.json"
      = some path ∧ ¬ hasDoubleSep path :=
  ⟨by decide, by decide, by decide,
   completeFilename_no_double_separator (S3Manager.mk "tester-config/" "tester-bucket")
     "a/b.json" (by decide) (by decide) (by decide)⟩

/-! ## Configuration: `LoadConfig` and `Begin` -/

/-- `os.Getenv` gives the empty string exactly for an unset or empty variable. -/
theorem getenv_eq_empty (env : String → Option String) (key : String) :
    Getenv env key = "" ↔ env key = none ∨ env key = some "" := by
  unfold Getenv
  cases h : env key with
  | none => simp
  | some v => simp

/-- When `os.Getenv` is not empty the variable is set to what it returns. -/
theorem getenv_of_ne_empty (env : String → Option String) (key : String)
    (h : Getenv env key ≠ "") : env key = some (Getenv env key) := by
  unfold Getenv at h ⊢
  cases hk : env key with
  | none => rw [hk] at h; exact absurd rfl h
  | some v => rfl

/-- The loop of `LoadConfig` finishes without error exactly when no variable
of the list is empty. -/
theorem loadConfig_loop_eq_none (getenv : String → String) (keys : List String) :
    S3Manager.LoadConfig.loop getenv keys = none ↔ ∀ k ∈ keys, getenv k ≠ "" := by
  induction keys with
  | nil => simp [S3Manager.LoadConfig.loop]
  | cons k ks ih =>
    unfold S3Manager.LoadConfig.loop
    by_cases h : getenv k = ""
    · rw [if_pos h]
      simp [h]
    · rw [if_neg h, ih]
      simp [h]

/-- An error of the loop of `LoadConfig` names the first empty variable. -/
theorem loadConfig_loop_eq_some (getenv : String → String) (keys : List String) (err : String)
    (h : S3Manager.LoadConfig.loop getenv keys = some err) :
    ∃ pre k post, keys = pre ++ k :: post ∧ (∀ x ∈ pre, getenv x ≠ "") ∧ getenv k = "" ∧
      err = "environment variable " ++ k ++ " is missing" := by
  induction keys with
  | nil => simp [S3Manager.LoadConfig.loop] at h
  | cons k ks ih =>
    unfold S3Manager.LoadConfig.loop at h
    by_cases hk : getenv k = ""
    · rw [if_pos hk] at h
      refine ⟨[], k, ks, rfl, ?_, hk, ?_⟩
      · intro x hx
        cases hx
      · exact (Option.some.inj h).symm
    · rw [if_neg hk] at h
      obtain ⟨pre, k2, post, hsplit, hpre, hk2, herr⟩ := ih h
      refine ⟨k :: pre, k2, post, ?_, ?_, hk2, herr⟩
      · rw [hsplit]; rfl
      · intro x hx
        rcases List.mem_cons.mp hx with hx | hx
        · subst hx; exact hk
        · exact hpre x hx

/-- The error of `LoadConfig` is the result of its loop. -/
theorem loadConfig_fst (a : S3Manager) (env : String → Option String) :
    (a.LoadConfig env).1 = S3Manager.LoadConfig.loop (Getenv env) S3Manager.EnviromentVariables := by
  unfold S3Manager.LoadConfig
  cases S3Manager.LoadConfig.loop (Getenv env) S3Manager.EnviromentVariables <;> rfl

/-- `LoadConfig` fails exactly when one of its variables is unset or empty. -/
theorem loadConfig_error_iff (a : S3Manager) (env : String → Option String) :
    (a.LoadConfig env).1 ≠ none ↔
      ∃ k ∈ S3Manager.EnviromentVariables, env k = none ∨ env k = some "" := by
  rw [loadConfig_fst, Ne, loadConfig_loop_eq_none]
  push_neg
  constructor
  · rintro ⟨k, hk, hempty⟩
    exact ⟨k, hk, (getenv_eq_empty env k).mp hempty⟩
  · rintro ⟨k, hk, hempty⟩
    exact ⟨k, hk, (getenv_eq_empty env k).mpr hempty⟩

/-- C2: `LoadConfig` returns an error exactly when one of the five variables is
unset or empty; the error names the first such variable in the order of the
list; on success the two variables read back are set, `Bucket` to the value of
`AWS_DEFAULT_BUCKET` and `Config` to the value of `APP_CONFIG_FOLDER`. -/
theorem loadConfig_spec (a : S3Manager) (env : String → Option String) :
    S3Manager.EnviromentVariables =
      ["AWS_ACCESS_KEY_ID", "AWS_SECRET_ACCESS_KEY", "AWS_REGION",
       "AWS_DEFAULT_BUCKET", "APP_CONFIG_FOLDER"] ∧
    ((a.LoadConfig env).1 ≠ none ↔
      ∃ k ∈ S3Manager.EnviromentVariables, env k = none ∨ env k = some "") ∧
    (∀ err, (a.LoadConfig env).1 = some err →
      ∃ pre k post, S3Manager.EnviromentVariables = pre ++ k :: post ∧
        (∀ x ∈ pre, ¬ (env x = none ∨ env x = some "")) ∧
        (env k = none ∨ env k = some "") ∧
        err = "environment variable " ++ k ++ " is missing") ∧
    ((a.LoadConfig env).1 = none →
      env "AWS_DEFAULT_BUCKET" = some (a.LoadConfig env).2.Bucket ∧
      env "APP_CONFIG_FOLDER" = some (a.LoadConfig env).2.Config) := by
  refine ⟨rfl, ?_, ?_, ?_⟩
  · exact loadConfig_error_iff a env
  · intro err herr
    rw [loadConfig_fst] at herr
    obtain ⟨pre, k, post, hsplit, hpre, hk, hmsg⟩ := loadConfig_loop_eq_some _ _ _ herr
    refine ⟨pre, k, post, hsplit, ?_, (getenv_eq_empty env k).mp hk, hmsg⟩
    intro x hx hempty
    exact hpre x hx ((getenv_eq_empty env x).mpr hempty)
  · intro hnone
    have hloop := hnone
    rw [loadConfig_fst] at hloop
    have hall := (loadConfig_loop_eq_none _ _).mp hloop
    have hB := hall "AWS_DEFAULT_BUCKET" (by decide)
    have hC := hall "APP_CONFIG_FOLDER" (by decide)
    unfold S3Manager.LoadConfig
    rw [hloop]
    exact ⟨getenv_of_ne_empty env _ hB, getenv_of_ne_empty env _ hC⟩

/-- With `AWS_REGION` set to the empty string, as in the test of the repository,
`LoadConfig` fails and names `AWS_REGION`. -/
theorem loadConfig_spec_witness :
    (S3Manager.LoadConfig (S3Manager.mk "" "")
      (fun k => if k = "AWS_REGION" then some "" else Sim.testEnv.lookup k)).1
      = some "environment variable AWS_REGION is missing" ∧
    (S3Manager.LoadConfig (S3Manager.mk "" "") (fun k => Sim.testEnv.lookup k))
      = (none, S3Manager.mk "tester-config" "tester-bucket") ∧
    Sim.testEnv.lookup "AWS_DEFAULT_BUCKET"
      = some (S3Manager.LoadConfig (S3Manager.mk "" "")
          (fun k => Sim.testEnv.lookup k)).2.Bucket ∧
    Sim.testEnv.lookup "APP_CONFIG_FOLDER"
      = some (S3Manager.LoadConfig (S3Manager.mk "" "")
          (fun k => Sim.testEnv.lookup k)).2.Config :=
  ⟨by decide, by decide,
   (loadConfig_spec (S3Manager.mk "" "") (fun k => Sim.testEnv.lookup k)).2.2.2 (by decide)⟩

/-! ## Buckets: `BucketExist` and `CreateBucket` -/

/-- The loop of `BucketExist` answers true exactly when a listed bucket carries
the configured name. -/
theorem bucketExist_loop_iff (a : S3Manager) (buckets : List s3.Bucket) :
    S3Manager.BucketExist.loop a buckets = true ↔
      ∃ b ∈ buckets, StringValue b.Name = a.Bucket := by
  induction buckets with
  | nil => simp [S3Manager.BucketExist.loop]
  | cons b bs ih =>
    unfold S3Manager.BucketExist.loop
    by_cases h : StringValue b.Name = a.Bucket
    · rw [if_pos h]
      simp [h]
    · rw [if_neg h, ih]
      simp [h]

/-- `NewService` returns when a session is built. -/
theorem newService_of_session {σ : Type} (a : S3Manager) (P : Platform σ) (w : World σ)
    (hs : P.NewSession w.state = none) : a.NewService P w = some () := by
  unfold S3Manager.NewService S3Manager.Connect
  rw [hs]

/-- `NewService` panics when no session can be built. -/
theorem newService_of_no_session {σ : Type} (a : S3Manager) (P : Platform σ) (w : World σ)
    (e : String) (hs : P.NewSession w.state = some e) : a.NewService P w = none := by
  unfold S3Manager.NewService S3Manager.Connect
  rw [hs]

/-- `BucketExist` panics when no session can be built. -/
theorem bucketExist_of_no_session {σ : Type} (a : S3Manager) (P : Platform σ) (w : World σ)
    (e : String) (hs : P.NewSession w.state = some e) : a.BucketExist P w = none := by
  unfold S3Manager.BucketExist
  rw [newService_of_no_session a P w e hs]

/-- `BucketExist` when the client is obtained and the listing fails. -/
theorem bucketExist_of_error {σ : Type} (a : S3Manager) (P : Platform σ) (w : World σ)
    (cause : String) (hs : P.NewSession w.state = none)
    (h : P.ListBuckets w.state = .error cause) :
    a.BucketExist P w =
      some ((false, some ("Unable to list buckets, " ++ cause)),
        w.issue Call.ListBuckets w.state) := by
  unfold S3Manager.BucketExist
  rw [newService_of_session a P w hs, h]

/-- `BucketExist` when the client is obtained and the listing succeeds. -/
theorem bucketExist_of_ok {σ : Type} (a : S3Manager) (P : Platform σ) (w : World σ)
    (buckets : List s3.Bucket) (hs : P.NewSession w.state = none)
    (h : P.ListBuckets w.state = .ok buckets) :
    a.BucketExist P w =
      some ((if S3Manager.BucketExist.loop a buckets then (true, none)
             else (false, some ("Unable to find " ++ a.Bucket))),
        w.issue Call.ListBuckets w.state) := by
  unfold S3Manager.BucketExist
  rw [newService_of_session a P w hs, h]
  simp only
  split <;> rfl

/-- Every run of `BucketExist` that returns has issued the list-buckets call,
and nothing else, and has left the state as it was. -/
theorem bucketExist_world {σ : Type} (a : S3Manager) (P : Platform σ) (w : World σ)
    (r : (Bool × GoError) × World σ) (h : a.BucketExist P w = some r) :
    P.NewSession w.state = none ∧ r.2 = w.issue Call.ListBuckets w.state := by
  cases hs : P.NewSession w.state with
  | some e =>
    rw [bucketExist_of_no_session a P w e hs] at h
    cases h
  | none =>
    refine ⟨rfl, ?_⟩
    cases hl : P.ListBuckets w.state with
    | error cause =>
      rw [bucketExist_of_error a P w cause hs hl] at h
      cases h
      rfl
    | ok buckets =>
      rw [bucketExist_of_ok a P w buckets hs hl] at h
      cases h
      rfl

/-- `BucketExist` answers `(true, nil)` exactly when the client is obtained, the
listing succeeds and it contains the configured name. -/
theorem bucketExist_true_iff {σ : Type} (a : S3Manager) (P : Platform σ) (w : World σ) :
    (∃ r, a.BucketExist P w = some r ∧ r.1 = (true, none)) ↔
      P.NewSession w.state = none ∧
      ∃ buckets, P.ListBuckets w.state = .ok buckets ∧
        ∃ b ∈ buckets, StringValue b.Name = a.Bucket := by
  constructor
  · rintro ⟨r, hr, htrue⟩
    have hs := (bucketExist_world a P w r hr).1
    refine ⟨hs, ?_⟩
    cases hl : P.ListBuckets w.state with
    | error cause =>
      rw [bucketExist_of_error a P w cause hs hl] at hr
      cases hr
      simp at htrue
    | ok buckets =>
      refine ⟨buckets, rfl, ?_⟩
      rw [bucketExist_of_ok a P w buckets hs hl] at hr
      cases hr
      by_cases hloop : S3Manager.BucketExist.loop a buckets = true
      · exact (bucketExist_loop_iff a buckets).mp hloop
      · simp only [if_neg hloop] at htrue
        simp at htrue
  · rintro ⟨hs, buckets, hl, hb⟩
    have hloop := (bucketExist_loop_iff a buckets).mpr hb
    refine ⟨_, bucketExist_of_ok a P w buckets hs hl, ?_⟩
    simp only [hloop, if_true]

/-- A run of `BucketExist` that returns gives no error only together with the
answer `true`. -/
theorem bucketExist_nil_iff {σ : Type} (a : S3Manager) (P : Platform σ) (w : World σ)
    (r : (Bool × GoError) × World σ) (h : a.BucketExist P w = some r) :
    r.1.2 = none ↔ r.1 = (true, none) := by
  have hs := (bucketExist_world a P w r h).1
  cases hl : P.ListBuckets w.state with
  | error cause =>
    rw [bucketExist_of_error a P w cause hs hl] at h
    cases h
    simp
  | ok buckets =>
    rw [bucketExist_of_ok a P w buckets hs hl] at h
    cases h
    split <;> simp

/-- C8: `BucketExist` returns `(true, nil)` exactly when the list-buckets call
succeeds (the client is obtained and the call answers without error) and some
listed bucket carries the configured name; when the list-buckets call fails it
returns `false` with an error whose message ends in the cause reported by the
call. -/
theorem bucketExist_spec {σ : Type} (a : S3Manager) (P : Platform σ) (w : World σ) :
    ((∃ r, a.BucketExist P w = some r ∧ r.1 = (true, none)) ↔
      P.NewSession w.state = none ∧
      ∃ buckets, P.ListBuckets w.state = .ok buckets ∧
        ∃ b ∈ buckets, StringValue b.Name = a.Bucket) ∧
    (P.NewSession w.state = none → ∀ cause, P.ListBuckets w.state = .error cause →
      ∃ r, a.BucketExist P w = some r ∧
        r.1 = (false, some ("Unable to list buckets, " ++ cause)) ∧
        cause.data <:+: ("Unable to list buckets, " ++ cause).data) := by
  constructor
  · exact bucketExist_true_iff a P w
  · intro hs cause h
    refine ⟨_, bucketExist_of_error a P w cause hs h, rfl, ?_⟩
    rw [String.data_append]
    exact (List.suffix_append _ _).isInfix

/-- The test of the repository: the configured bucket is listed, so the answer
is `(true, nil)`; with the service out of reach the answer is an error that
carries the cause. -/
theorem bucketExist_spec_witness :
    (∃ r, S3Manager.BucketExist (S3Manager.mk "tester-config" "tester-bucket")
      Sim.platform Sim.start = some r ∧ r.1 = (true, none)) ∧
    Sim.platform.NewSession { Sim.start.state with down := some "MissingRegion" } = none ∧
    Sim.platform.ListBuckets { Sim.start.state with down := some "MissingRegion" }
      = .error "MissingRegion" ∧
    (∃ r, S3Manager.BucketExist (S3Manager.mk "tester-config" "tester-bucket") Sim.platform
      { Sim.start with state := { Sim.start.state with down := some "MissingRegion" } }
        = some r ∧
      r.1 = (false, some ("Unable to list buckets, " ++ "MissingRegion")) ∧
      "MissingRegion".data <:+: ("Unable to list buckets, " ++ "MissingRegion").data) :=
  ⟨(bucketExist_spec (S3Manager.mk "tester-config" "tester-bucket") Sim.platform Sim.start).1.mpr
      ⟨rfl, [{ Name := some "tester-bucket" }], rfl, { Name := some "tester-bucket" },
        by simp, rfl⟩,
   rfl, rfl,
   (bucketExist_spec (S3Manager.mk "tester-config" "tester-bucket") Sim.platform
      { Sim.start with state := { Sim.start.state with down := some "MissingRegion" } }).2
      rfl "MissingRegion" rfl⟩

/-- C3, as the code has it: when the listing succeeds (the client is obtained
and the call answers without error) and no listed bucket carries the configured
name, `BucketExist` returns `false` together with the error
`Unable to find <Bucket>`, after the single list-buckets call. -/
theorem bucketExist_absent {σ : Type} (a : S3Manager) (P : Platform σ) (w : World σ)
    (buckets : List s3.Bucket) (hs : P.NewSession w.state = none)
    (hl : P.ListBuckets w.state = .ok buckets)
    (hn : ∀ b ∈ buckets, StringValue b.Name ≠ a.Bucket) :
    ∃ r, a.BucketExist P w = some r ∧
      r.1 = (false, some ("Unable to find " ++ a.Bucket)) ∧
      r.2.calls = w.calls ++ [Call.ListBuckets] := by
  have hloop : ¬ S3Manager.BucketExist.loop a buckets = true := by
    intro h
    obtain ⟨b, hb, hname⟩ := (bucketExist_loop_iff a buckets).mp h
    exact hn b hb hname
  refine ⟨_, bucketExist_of_ok a P w buckets hs hl, ?_, rfl⟩
  simp only [if_neg hloop]

/-- The bucket `absent` is not among the buckets of the simulated service. -/
theorem bucketExist_absent_witness :
    Sim.platform.NewSession Sim.start.state = none ∧
    ∃ r, S3Manager.BucketExist (S3Manager.mk "tester-config" "absent") Sim.platform Sim.start
        = some r ∧
      r.1 = (false, some ("Unable to find " ++ "absent")) ∧
      r.2.calls = Sim.start.calls ++ [Call.ListBuckets] :=
  ⟨rfl, bucketExist_absent (S3Manager.mk "tester-config" "absent") Sim.platform Sim.start
    [{ Name := some "tester-bucket" }] rfl rfl (by decide)⟩

/-- C3 fails as stated: the client is obtained, the listing succeeds and does
not contain `absent`, and the result carries an error instead of `nil`. -/
theorem bucketExist_absent_counterexample :
    Sim.platform.NewSession Sim.start.state = none ∧
    Sim.platform.ListBuckets Sim.start.state = .ok [{ Name := some "tester-bucket" }] ∧
    (∀ b ∈ [({ Name := some "tester-bucket" } : s3.Bucket)], StringValue b.Name ≠ "absent") ∧
    (S3Manager.BucketExist (S3Manager.mk "tester-config" "absent") Sim.platform
        Sim.start).map (fun r => r.1)
      = some (false, some "Unable to find absent") ∧
    (S3Manager.BucketExist (S3Manager.mk "tester-config" "absent") Sim.platform
        Sim.start).map (fun r => r.1)
      ≠ some (false, none) := by
  refine ⟨rfl, rfl, by decide, by decide, by decide⟩

/-- `CreateBucket` when the client is obtained and the configured bucket is listed. -/
theorem createBucket_of_listed {σ : Type} (a : S3Manager) (P : Platform σ) (w : World σ)
    (buckets : List s3.Bucket) (hs : P.NewSession w.state = none)
    (hl : P.ListBuckets w.state = .ok buckets)
    (hb : ∃ b ∈ buckets, StringValue b.Name = a.Bucket) :
    a.CreateBucket P w = some (none, w.issue Call.ListBuckets w.state) := by
  have hloop : S3Manager.BucketExist.loop a buckets = true :=
    (bucketExist_loop_iff a buckets).mpr hb
  unfold S3Manager.CreateBucket
  rw [bucketExist_of_ok a P w buckets hs hl]
  simp only [hloop, if_true]

/-- `CreateBucket` after `BucketExist` answered `false`: the create-bucket call
follows, and the wait when the create reports no error. -/
theorem createBucket_of_absent {σ : Type} (a : S3Manager) (P : Platform σ) (w : World σ)
    (r : (Bool × GoError) × World σ) (hr : a.BucketExist P w = some r)
    (hf : r.1.1 = false) :
    ∃ c, a.CreateBucket P w = some c ∧
      (∀ err, (P.CreateBucket a.Bucket w.state).1 = some err →
        c.1 = some ("Unable to create bucket " ++ P.Quote a.Bucket ++ ", " ++ err) ∧
        c.2.calls = w.calls ++ [Call.ListBuckets, Call.CreateBucket a.Bucket]) ∧
      ((P.CreateBucket a.Bucket w.state).1 = none →
        c.2.calls = w.calls ++ [Call.ListBuckets, Call.CreateBucket a.Bucket,
          Call.WaitUntilBucketExists a.Bucket] ∧
        (c.1 = none ↔
          (P.WaitUntilBucketExists a.Bucket (P.CreateBucket a.Bucket w.state).2).1 = none)) := by
  obtain ⟨hs, hw⟩ := bucketExist_world a P w r hr
  have hs2 : P.NewSession r.2.state = none := by rw [hw]; exact hs
  unfold S3Manager.CreateBucket
  rw [hr]
  simp only [hf, Bool.false_eq_true, if_false, newService_of_session a P r.2 hs2]
  rw [hw]
  simp only [World.issue]
  cases hc : (P.CreateBucket a.Bucket w.state).1 with
  | some err =>
    refine ⟨_, rfl, ?_, ?_⟩
    · intro err2 h2
      have : err2 = err := (Option.some.inj h2).symm
      subst this
      exact ⟨rfl, by simp⟩
    · intro h2
      cases h2
  | none =>
    simp only
    cases hd : (P.WaitUntilBucketExists a.Bucket (P.CreateBucket a.Bucket w.state).2).1 with
    | some e =>
      refine ⟨_, rfl, ?_, ?_⟩
      · intro err h2
        cases h2
      · intro _
        exact ⟨by simp, by simp⟩
    | none =>
      refine ⟨_, rfl, ?_, ?_⟩
      · intro err h2
        cases h2
      · intro _
        exact ⟨by simp, by simp⟩

/-- Every run of `CreateBucket` that returns began with the list-buckets call. -/
theorem createBucket_calls {σ : Type} (a : S3Manager) (P : Platform σ) (w : World σ)
    (c : GoError × World σ) (h : a.CreateBucket P w = some c) :
    w.calls ++ [Call.ListBuckets] <+: c.2.calls := by
  cases hr : a.BucketExist P w with
  | none =>
    unfold S3Manager.CreateBucket at h
    rw [hr] at h
    cases h
  | some r =>
    obtain ⟨hs, hw⟩ := bucketExist_world a P w r hr
    by_cases hf : r.1.1 = true
    · unfold S3Manager.CreateBucket at h
      rw [hr] at h
      simp only [hf, if_true] at h
      cases h
      rw [hw]
      simp [World.issue]
    · have hf2 : r.1.1 = false := by simpa using hf
      obtain ⟨c2, hc2, herr, hok⟩ := createBucket_of_absent a P w r hr hf2
      rw [h] at hc2
      cases hc2
      cases hc : (P.CreateBucket a.Bucket w.state).1 with
      | some err =>
        rw [(herr err hc).2]
        simp
      | none =>
        rw [(hok hc).1]
        simp

/-- C6: when the listing succeeds (the client is obtained and the call answers
without error) and contains the configured bucket, `CreateBucket` returns no
error and issues the list-buckets call only, leaving the state as it was; a
second `CreateBucket` right after it does the same, so neither issues a
create-bucket or wait call. -/
theorem createBucket_existing {σ : Type} (a : S3Manager) (P : Platform σ) (w : World σ)
    (buckets : List s3.Bucket) (hs : P.NewSession w.state = none)
    (hl : P.ListBuckets w.state = .ok buckets)
    (hb : ∃ b ∈ buckets, StringValue b.Name = a.Bucket) :
    ∃ first, a.CreateBucket P w = some first ∧
      first.1 = none ∧
      first.2.state = w.state ∧
      first.2.calls = w.calls ++ [Call.ListBuckets] ∧
      ∃ second, a.CreateBucket P first.2 = some second ∧
        second.1 = none ∧
        second.2.state = w.state ∧
        second.2.calls = w.calls ++ [Call.ListBuckets, Call.ListBuckets] := by
  have h1 := createBucket_of_listed a P w buckets hs hl hb
  have h2 := createBucket_of_listed a P (w.issue Call.ListBuckets w.state) buckets hs hl hb
  refine ⟨_, h1, rfl, rfl, rfl, _, h2, rfl, rfl, ?_⟩
  simp [World.issue]

/-- The bucket of the test suite exists in the simulated service. -/
theorem createBucket_existing_witness :
    Sim.platform.NewSession Sim.start.state = none ∧
    ∃ first, S3Manager.CreateBucket (S3Manager.mk "tester-config" "tester-bucket")
        Sim.platform Sim.start = some first ∧
      first.1 = none ∧
      first.2.state = Sim.start.state ∧
      first.2.calls = Sim.start.calls ++ [Call.ListBuckets] ∧
      ∃ second, S3Manager.CreateBucket (S3Manager.mk "tester-config" "tester-bucket")
          Sim.platform first.2 = some second ∧
        second.1 = none ∧
        second.2.state = Sim.start.state ∧
        second.2.calls = Sim.start.calls ++ [Call.ListBuckets, Call.ListBuckets] :=
  ⟨rfl, createBucket_existing (S3Manager.mk "tester-config" "tester-bucket") Sim.platform
    Sim.start [{ Name := some "tester-bucket" }] rfl rfl
    ⟨{ Name := some "tester-bucket" }, by simp, rfl⟩⟩

/-- Every run of `Init` that returns began with the make-directory call. -/
theorem init_calls {σ : Type} (a : S3Manager) (P : Platform σ) (w : World σ)
    (i : GoError × World σ) (h : a.Init P w = some i) :
    w.calls ++ [Call.FsMkdir a.Config] <+: i.2.calls := by
  unfold S3Manager.Init at h
  simp only at h
  split at h
  · cases h
    simp [World.issue]
  · have hc := createBucket_calls a P _ i h
    exact (List.prefix_append _ _).trans hc

/-- C7: when `APP_CONFIG_FOLDER` is unset or empty, `Begin` returns an error,
the very error of `LoadConfig`, and leaves the world as it found it: no
directory is made and no remote call is issued.  `Init` was not run, since
every run of `Init` that returns has issued a call, and one that panics makes
`Begin` panic. -/
theorem begin_without_config_folder {σ : Type} (a : S3Manager) (P : Platform σ) (w : World σ)
    (h : P.LookupEnv w.state "APP_CONFIG_FOLDER" = none ∨
         P.LookupEnv w.state "APP_CONFIG_FOLDER" = some "") :
    ∃ r, a.Begin P w = some r ∧
      (∃ err, r.1.1 = some err) ∧
      r.1.1 = (a.LoadConfig (P.LookupEnv w.state)).1 ∧
      r.2 = w ∧
      (∀ (b : S3Manager) (i : GoError × World σ), b.Init P w = some i → i.2.calls ≠ r.2.calls) := by
  have hfail : (a.LoadConfig (P.LookupEnv w.state)).1 ≠ none :=
    (loadConfig_error_iff a (P.LookupEnv w.state)).mpr ⟨"APP_CONFIG_FOLDER", by decide, h⟩
  obtain ⟨err, herr⟩ := Option.ne_none_iff_exists'.mp hfail
  have hB : a.Begin P w = some ((some err, (a.LoadConfig (P.LookupEnv w.state)).2), w) := by
    unfold S3Manager.Begin
    simp only [herr]
  refine ⟨_, hB, ⟨err, rfl⟩, herr.symm, rfl, ?_⟩
  intro b i hi hcalls
  have hlen := (init_calls b P w i hi).length_le
  rw [hcalls] at hlen
  simp at hlen

/-- The test of the repository: every variable is set except `APP_CONFIG_FOLDER`,
which is empty. -/
theorem begin_without_config_folder_witness :
    (∃ r, S3Manager.Begin (S3Manager.mk "" "") Sim.platform
      { Sim.start with state := { Sim.start.state with
          env := ("APP_CONFIG_FOLDER", "") :: Sim.testEnv } } = some r ∧
      (∃ err, r.1.1 = some err) ∧
      r.1.1 = (S3Manager.LoadConfig (S3Manager.mk "" "")
        (Sim.platform.LookupEnv { Sim.start.state with
          env := ("APP_CONFIG_FOLDER", "") :: Sim.testEnv })).1 ∧
      r.2 = { Sim.start with state := { Sim.start.state with
          env := ("APP_CONFIG_FOLDER", "") :: Sim.testEnv } } ∧
      (∀ (b : S3Manager) (i : GoError × World Sim),
        b.Init Sim.platform { Sim.start with state := { Sim.start.state with
          env := ("APP_CONFIG_FOLDER", "") :: Sim.testEnv } } = some i →
        i.2.calls ≠ r.2.calls)) ∧
    (S3Manager.Begin (S3Manager.mk "" "") Sim.platform
      { Sim.start with state := { Sim.start.state with
          env := ("APP_CONFIG_FOLDER", "") :: Sim.testEnv } }).map (fun r => r.1.1)
      = some (some "environment variable APP_CONFIG_FOLDER is missing") :=
  ⟨begin_without_config_folder (S3Manager.mk "" "") Sim.platform
      { Sim.start with state := { Sim.start.state with
          env := ("APP_CONFIG_FOLDER", "") :: Sim.testEnv } } (Or.inr rfl),
   by decide⟩

/-- `BucketExist` answers `false` when the client is obtained and no listing
with the configured name comes back. -/
theorem bucketExist_false_of_absent {σ : Type} (a : S3Manager) (P : Platform σ) (w : World σ)
    (hs : P.NewSession w.state = none)
    (hn : ¬ ∃ buckets, P.ListBuckets w.state = .ok buckets ∧
        ∃ b ∈ buckets, StringValue b.Name = a.Bucket) :
    ∃ r, a.BucketExist P w = some r ∧ r.1.1 = false := by
  cases hl : P.ListBuckets w.state with
  | error cause => exact ⟨_, bucketExist_of_error a P w cause hs hl, rfl⟩
  | ok buckets =>
    refine ⟨_, bucketExist_of_ok a P w buckets hs hl, ?_⟩
    have hloop : ¬ S3Manager.BucketExist.loop a buckets = true := by
      intro h
      exact hn ⟨buckets, hl, (bucketExist_loop_iff a buckets).mp h⟩
    simp only [if_neg hloop]

/-! ## Objects: `Delete`, `Upload` and `Download` -/

/-- `Delete` when the client is obtained: a result comes back after the local
delete and the remote delete-object call. -/
theorem delete_eq {σ : Type} (a : S3Manager) (P : Platform σ) (filename path : String)
    (w : World σ) (hp : a.CompleteFilename filename = some path)
    (hs : P.NewSession (P.FsDelete path w.state) = none) :
    ∃ r, a.Delete P filename w = some r ∧
      r.2.calls = w.calls ++ [Call.FsDelete path, Call.DeleteObject a.Bucket filename] ∧
      (r.1.2 = none ↔
        (P.DeleteObject a.Bucket filename (P.FsDelete path w.state)).1 = none) := by
  unfold S3Manager.Delete
  rw [hp]
  simp only
  rw [newService_of_session a P _ (by simpa [World.issue] using hs)]
  simp only [World.issue]
  cases hd : (P.DeleteObject a.Bucket filename (P.FsDelete path w.state)).1 with
  | some err => exact ⟨_, rfl, by simp, by simp⟩
  | none => exact ⟨_, rfl, by simp, by simp⟩

/-- `Upload` panics when no session can be built. -/
theorem upload_of_no_session {σ : Type} (a : S3Manager) (P : Platform σ)
    (source destination e : String) (w : World σ) (hs : P.NewSession w.state = some e) :
    a.Upload P source destination w = none := by
  unfold S3Manager.Upload S3Manager.Connect
  rw [hs]

/-- `Upload` once the session is built and the source file has been opened. -/
theorem upload_of_open {σ : Type} (a : S3Manager) (P : Platform σ) (source destination : String)
    (w : World σ) (hs : P.NewSession w.state = none)
    (ho : (P.OsOpen source w.state).1 = none) :
    ∃ r, a.Upload P source destination w = some r ∧
      r.2.calls = w.calls ++ [Call.OsOpen source,
        Call.PutObject a.Bucket destination source, Call.FileClose source] ∧
      (r.1.2 = none ↔
        (P.PutObject a.Bucket destination source (P.OsOpen source w.state).2).1 = none) := by
  unfold S3Manager.Upload S3Manager.Connect
  rw [hs]
  simp only [ho, World.issue]
  cases hu : (P.PutObject a.Bucket destination source (P.OsOpen source w.state).2).1 with
  | some err => exact ⟨_, rfl, by simp, by simp⟩
  | none => exact ⟨_, rfl, by simp, by simp⟩

/-- `Download` once its destination is chosen, the local file has been created
and the session is built. -/
theorem download_of_create {σ : Type} (a : S3Manager) (P : Platform σ) (filename path : String)
    (args : List String) (w w1 : World σ)
    (ht : S3Manager.Download.target a P filename args w = some (path, w1))
    (hc : (P.OsCreate path w1.state).1 = none)
    (hs : P.NewSession (P.OsCreate path w1.state).2 = none) :
    ∃ r, a.Download P filename args w = some r ∧
      r.2.calls = w1.calls ++ [Call.OsCreate path, Call.GetObject a.Bucket filename path,
        Call.FileClose path] ∧
      (r.1.2 = none ↔
        (P.GetObject a.Bucket filename path (P.OsCreate path w1.state).2).1 = none) := by
  unfold S3Manager.Download S3Manager.Connect
  rw [ht]
  simp only [hc, World.issue, hs]
  cases hg : (P.GetObject a.Bucket filename path (P.OsCreate path w1.state).2).1 with
  | some err => exact ⟨_, rfl, by simp, by simp⟩
  | none => exact ⟨_, rfl, by simp, by simp⟩

/-- `Download` panics when the local file has been created and no session can
be built. -/
theorem download_of_no_session {σ : Type} (a : S3Manager) (P : Platform σ)
    (filename path e : String) (args : List String) (w w1 : World σ)
    (ht : S3Manager.Download.target a P filename args w = some (path, w1))
    (hc : (P.OsCreate path w1.state).1 = none)
    (hs : P.NewSession (P.OsCreate path w1.state).2 = some e) :
    a.Download P filename args w = none := by
  unfold S3Manager.Download S3Manager.Connect
  rw [ht]
  simp only [hc, World.issue, hs]

/-- `Download` when the local file cannot be created. -/
theorem download_of_create_error {σ : Type} (a : S3Manager) (P : Platform σ)
    (filename path err : String) (args : List String) (w w1 : World σ)
    (ht : S3Manager.Download.target a P filename args w = some (path, w1))
    (hc : (P.OsCreate path w1.state).1 = some err) :
    a.Download P filename args w =
      some ((false, some ("Unable to create file " ++ path ++ ", " ++ err)),
        w1.issue (Call.OsCreate path) (P.OsCreate path w1.state).2) := by
  unfold S3Manager.Download
  rw [ht]
  simp only [hc]

/-- The destination of `Download` without an override: the resolved path, after
the make-directory call on its directory. -/
theorem download_target_nil {σ : Type} (a : S3Manager) (P : Platform σ) (filename path : String)
    (w : World σ) (hp : a.CompleteFilename filename = some path) :
    S3Manager.Download.target a P filename [] w =
      some (path, w.issue (Call.FsMkdir (P.Dir path)) (P.FsMkdir (P.Dir path) w.state).2) := by
  unfold S3Manager.Download.target
  simp only [hp]

/-- C5, as the code has it: with an empty `Bucket`, in a run where the client is
obtained, no operation checks the name before calling out.  `BucketExist`
issues the list-buckets call and returns no error only when a listed bucket has
the empty name.  `CreateBucket` issues the list-buckets call and, unless a
listed bucket has the empty name, the create-bucket call with the empty name;
it returns the error `Unable to create bucket ...` when that call reports one,
and otherwise waits for the empty name and returns an error exactly when the
wait reports one.  `Upload` issues the upload once the source file is open,
`Delete` issues delete-object, `Download` issues the download once the local
file is created, each with the empty bucket name, and each of the three returns
an error exactly when that call reports one. -/
theorem empty_bucket_not_checked {σ : Type} (a : S3Manager) (P : Platform σ) (w : World σ)
    (h : a.Bucket = "") (hs : P.NewSession w.state = none) :
    (∃ r, a.BucketExist P w = some r ∧
      r.2.calls = w.calls ++ [Call.ListBuckets] ∧
      (r.1.2 = none ↔
        ∃ buckets, P.ListBuckets w.state = .ok buckets ∧
          ∃ b ∈ buckets, StringValue b.Name = "")) ∧
    (∃ c, a.CreateBucket P w = some c ∧
      ((∃ buckets, P.ListBuckets w.state = .ok buckets ∧
          ∃ b ∈ buckets, StringValue b.Name = "") →
        c.1 = none ∧ c.2.calls = w.calls ++ [Call.ListBuckets]) ∧
      ((¬ ∃ buckets, P.ListBuckets w.state = .ok buckets ∧
          ∃ b ∈ buckets, StringValue b.Name = "") →
        (∀ err, (P.CreateBucket "" w.state).1 = some err →
          c.1 = some ("Unable to create bucket " ++ P.Quote "" ++ ", " ++ err) ∧
          c.2.calls = w.calls ++ [Call.ListBuckets, Call.CreateBucket ""]) ∧
        ((P.CreateBucket "" w.state).1 = none →
          c.2.calls = w.calls ++ [Call.ListBuckets, Call.CreateBucket "",
            Call.WaitUntilBucketExists ""] ∧
          (c.1 = none ↔
            (P.WaitUntilBucketExists "" (P.CreateBucket "" w.state).2).1 = none)))) ∧
    (∀ source destination, (P.OsOpen source w.state).1 = none →
      ∃ r, a.Upload P source destination w = some r ∧
        r.2.calls = w.calls ++ [Call.OsOpen source, Call.PutObject "" destination source,
          Call.FileClose source] ∧
        (r.1.2 = none ↔
          (P.PutObject "" destination source (P.OsOpen source w.state).2).1 = none)) ∧
    (∀ filename, ∃ path, a.CompleteFilename filename = some path ∧
      (P.NewSession (P.FsDelete path w.state) = none →
        ∃ r, a.Delete P filename w = some r ∧
          r.2.calls = w.calls ++ [Call.FsDelete path, Call.DeleteObject "" filename] ∧
          (r.1.2 = none ↔
            (P.DeleteObject "" filename (P.FsDelete path w.state)).1 = none))) ∧
    (∀ filename args path w1,
      S3Manager.Download.target a P filename args w = some (path, w1) →
      (P.OsCreate path w1.state).1 = none →
      P.NewSession (P.OsCreate path w1.state).2 = none →
      ∃ r, a.Download P filename args w = some r ∧
        r.2.calls = w1.calls ++ [Call.OsCreate path, Call.GetObject "" filename path,
          Call.FileClose path] ∧
        (r.1.2 = none ↔
          (P.GetObject "" filename path (P.OsCreate path w1.state).2).1 = none)) := by
  refine ⟨?_, ?_, ?_, ?_, ?_⟩
  · by_cases hf : ∃ buckets, P.ListBuckets w.state = .ok buckets ∧
        ∃ b ∈ buckets, StringValue b.Name = a.Bucket
    · obtain ⟨r, hr, htrue⟩ := (bucketExist_true_iff a P w).mpr ⟨hs, hf⟩
      refine ⟨r, hr, ?_, ?_⟩
      · rw [(bucketExist_world a P w r hr).2]; rfl
      · rw [h] at hf
        rw [htrue]
        simp [hf]
    · obtain ⟨r, hr, hfalse⟩ := bucketExist_false_of_absent a P w hs hf
      refine ⟨r, hr, ?_, ?_⟩
      · rw [(bucketExist_world a P w r hr).2]; rfl
      · rw [bucketExist_nil_iff a P w r hr]
        rw [h] at hf
        constructor
        · intro htrue
          rw [htrue] at hfalse
          cases hfalse
        · intro hf2
          exact absurd hf2 hf
  · by_cases hf : ∃ buckets, P.ListBuckets w.state = .ok buckets ∧
        ∃ b ∈ buckets, StringValue b.Name = a.Bucket
    · obtain ⟨buckets, hl, hb⟩ := hf
      refine ⟨_, createBucket_of_listed a P w buckets hs hl hb, ?_, ?_⟩
      · intro _
        exact ⟨rfl, rfl⟩
      · intro hn
        rw [h] at hb
        exact absurd ⟨buckets, hl, hb⟩ hn
    · obtain ⟨r, hr, hfalse⟩ := bucketExist_false_of_absent a P w hs hf
      obtain ⟨c, hc, herr, hok⟩ := createBucket_of_absent a P w r hr hfalse
      rw [h] at hf herr hok
      refine ⟨c, hc, ?_, ?_⟩
      · intro hf2
        exact absurd hf2 hf
      · intro _
        exact ⟨herr, hok⟩
  · intro source destination ho
    have := upload_of_open a P source destination w hs ho
    rw [h] at this
    exact this
  · intro filename
    refine ⟨_, completeFilename_eq a filename, ?_⟩
    intro hs2
    have := delete_eq a P filename _ w (completeFilename_eq a filename) hs2
    rw [h] at this
    exact this
  · intro filename args path w1 ht hc hs2
    have := download_of_create a P filename path args w w1 ht hc hs2
    rw [h] at this
    exact this

/-- On the simulated platform a manager without a bucket name still reaches the
client: the listing is requested. -/
theorem empty_bucket_not_checked_witness :
    (S3Manager.mk "tester-config" "").Bucket = "" ∧
    Sim.platform.NewSession Sim.start.state = none ∧
    ∃ r, S3Manager.BucketExist (S3Manager.mk "tester-config" "") Sim.platform Sim.start
        = some r ∧
      r.2.calls = Sim.start.calls ++ [Call.ListBuckets] ∧
      (r.1.2 = none ↔
        ∃ buckets, Sim.platform.ListBuckets Sim.start.state = .ok buckets ∧
          ∃ b ∈ buckets, StringValue b.Name = "") :=
  ⟨rfl, rfl, (empty_bucket_not_checked (S3Manager.mk "tester-config" "") Sim.platform Sim.start
    rfl rfl).1⟩

/-- C5 fails as stated: with an empty `Bucket` each of the five operations
issues a call to the remote client before it returns its error. -/
theorem empty_bucket_counterexample :
    (S3Manager.mk "tester-config" "").Bucket = "" ∧
    (S3Manager.BucketExist (S3Manager.mk "tester-config" "") Sim.platform
        Sim.start).map (fun r => (r.1, r.2.calls))
      = some ((false, some "Unable to find "), [Call.ListBuckets]) ∧
    (S3Manager.CreateBucket (S3Manager.mk "tester-config" "") Sim.platform
        Sim.start).map (fun r => (r.1.isSome, r.2.calls))
      = some (true, [Call.ListBuckets, Call.CreateBucket ""]) ∧
    (S3Manager.Upload (S3Manager.mk "tester-config" "") Sim.platform
        "tester-config/test-file.json" "test-file.json" Sim.start).map
          (fun r => (r.1.2.isSome, r.2.calls))
      = some (true, [Call.OsOpen "tester-config/test-file.json",
         Call.PutObject "" "test-file.json" "tester-config/test-file.json",
         Call.FileClose "tester-config/test-file.json"]) ∧
    (S3Manager.Download (S3Manager.mk "tester-config" "") Sim.platform
        "test-file.json" [] Sim.start).map (fun r => (r.1.2.isSome, r.2.calls))
      = some (true, [Call.FsMkdir "tester-config",
         Call.OsCreate "tester-config/test-file.json",
         Call.GetObject "" "test-file.json" "tester-config/test-file.json",
         Call.FileClose "tester-config/test-file.json"]) ∧
    (S3Manager.Delete (S3Manager.mk "tester-config" "") Sim.platform
        "test-file.json" Sim.start).map (fun r => (r.1.2.isSome, r.2.calls))
      = some (true, [Call.FsDelete "tester-config/test-file.json",
         Call.DeleteObject "" "test-file.json"]) ∧
    Call.ListBuckets.isRemote = true ∧
    (Call.CreateBucket "").isRemote = true ∧
    (Call.PutObject "" "test-file.json" "tester-config/test-file.json").isRemote = true ∧
    (Call.GetObject "" "test-file.json" "tester-config/test-file.json").isRemote = true ∧
    (Call.DeleteObject "" "test-file.json").isRemote = true := by
  refine ⟨rfl, by decide, by decide, by decide, by decide, by decide, rfl, rfl, rfl, rfl, rfl⟩

/-- C4, as the code has it: `Download` without an override always resolves its
destination to `CompleteFilename key`, whatever the key, and tries to create
that file after making its directory.  When the filesystem refuses to create
it, the result is failure with the error `Unable to create file ...` and no
remote call is issued.  When the file is created, `Connect` runs next: if no
session can be built the run panics there, with no download requested;
otherwise the download is requested and there is an error exactly when the
download reports one. -/
theorem download_resolved_path {σ : Type} (a : S3Manager) (P : Platform σ) (key : String)
    (w : World σ) :
    ∃ path, a.CompleteFilename key = some path ∧
      (∀ err, (P.OsCreate path (P.FsMkdir (P.Dir path) w.state).2).1 = some err →
        ∃ r, a.Download P key [] w = some r ∧
          r.1 = (false, some ("Unable to create file " ++ path ++ ", " ++ err)) ∧
          r.2.calls = w.calls ++ [Call.FsMkdir (P.Dir path), Call.OsCreate path]) ∧
      ((P.OsCreate path (P.FsMkdir (P.Dir path) w.state).2).1 = none →
        (∀ e, P.NewSession (P.OsCreate path (P.FsMkdir (P.Dir path) w.state).2).2 = some e →
          a.Download P key [] w = none) ∧
        (P.NewSession (P.OsCreate path (P.FsMkdir (P.Dir path) w.state).2).2 = none →
          ∃ r, a.Download P key [] w = some r ∧
            r.2.calls = w.calls ++ [Call.FsMkdir (P.Dir path), Call.OsCreate path,
              Call.GetObject a.Bucket key path, Call.FileClose path] ∧
            (r.1.2 = none ↔
              (P.GetObject a.Bucket key path
                (P.OsCreate path (P.FsMkdir (P.Dir path) w.state).2).2).1 = none))) := by
  obtain ⟨path, hp⟩ : ∃ path, a.CompleteFilename key = some path :=
    ⟨_, completeFilename_eq a key⟩
  have ht := download_target_nil a P key path w hp
  refine ⟨path, hp, ?_, ?_⟩
  · intro err hc
    refine ⟨_, download_of_create_error a P key path err [] w _ ht hc, rfl, ?_⟩
    simp [World.issue]
  · intro hc
    constructor
    · intro e hs
      exact download_of_no_session a P key path e [] w _ ht hc hs
    · intro hs
      obtain ⟨r, hr, hcalls, hiff⟩ := download_of_create a P key path [] w _ ht hc hs
      refine ⟨r, hr, ?_, hiff⟩
      rw [hcalls]
      simp [World.issue]

/-- The test of the repository: `Download("..")` fails, because the resolved
path `tester-config/..` names a directory and cannot be created as a file. -/
theorem download_resolved_path_witness :
    (∃ path, S3Manager.CompleteFilename (S3Manager.mk "tester-config" "tester-bucket") ".."
        = some path ∧
      (∀ err, (Sim.platform.OsCreate path
          (Sim.platform.FsMkdir (Sim.platform.Dir path) Sim.start.state).2).1 = some err →
        ∃ r, S3Manager.Download (S3Manager.mk "tester-config" "tester-bucket") Sim.platform
            ".." [] Sim.start = some r ∧
          r.1 = (false, some ("Unable to create file " ++ path ++ ", " ++ err)) ∧
          r.2.calls = Sim.start.calls
            ++ [Call.FsMkdir (Sim.platform.Dir path), Call.OsCreate path]) ∧
      ((Sim.platform.OsCreate path
          (Sim.platform.FsMkdir (Sim.platform.Dir path) Sim.start.state).2).1 = none →
        (∀ e, Sim.platform.NewSession (Sim.platform.OsCreate path
            (Sim.platform.FsMkdir (Sim.platform.Dir path) Sim.start.state).2).2 = some e →
          S3Manager.Download (S3Manager.mk "tester-config" "tester-bucket") Sim.platform
            ".." [] Sim.start = none) ∧
        (Sim.platform.NewSession (Sim.platform.OsCreate path
            (Sim.platform.FsMkdir (Sim.platform.Dir path) Sim.start.state).2).2 = none →
          ∃ r, S3Manager.Download (S3Manager.mk "tester-config" "tester-bucket") Sim.platform
              ".." [] Sim.start = some r ∧
            r.2.calls = Sim.start.calls ++ [Call.FsMkdir (Sim.platform.Dir path),
              Call.OsCreate path, Call.GetObject "tester-bucket" ".." path,
              Call.FileClose path] ∧
            (r.1.2 = none ↔
              (Sim.platform.GetObject "tester-bucket" ".." path
                (Sim.platform.OsCreate path
                  (Sim.platform.FsMkdir (Sim.platform.Dir path) Sim.start.state).2).2).1
                = none)))) ∧
    (Sim.platform.OsCreate "tester-config/.."
        (Sim.platform.FsMkdir (Sim.platform.Dir "tester-config/..") Sim.start.state).2).1
      = some "open tester-config/..: is a directory" ∧
    (S3Manager.Download (S3Manager.mk "tester-config" "tester-bucket") Sim.platform ".." []
        Sim.start).map (fun r => (r.1, r.2.calls))
      = some ((false, some
          "Unable to create file tester-config/.., open tester-config/..: is a directory"),
        [Call.FsMkdir "tester-config", Call.OsCreate "tester-config/.."]) ∧
    (S3Manager.Download (S3Manager.mk "tester-config" "tester-bucket") Sim.platform
        "test-file.json" []
        { Sim.start with state := { Sim.start.state with session := some "no config" } })
      = none ∧
    (S3Manager.Download (S3Manager.mk "tester-config" "tester-bucket") Sim.platform
        "test-file.json" [] Sim.start).map (fun r => (r.1, r.2.calls))
      = some ((true, none),
        [Call.FsMkdir "tester-config", Call.OsCreate "tester-config/test-file.json",
         Call.GetObject "tester-bucket" "test-file.json" "tester-config/test-file.json",
         Call.FileClose "tester-config/test-file.json"]) :=
  ⟨download_resolved_path (S3Manager.mk "tester-config" "tester-bucket") Sim.platform ".."
    Sim.start, by decide, by decide, by decide, by decide⟩

/-- C4 fails as stated: for the key `../x` the joined path `tester-config/../x`
is the file `x` next to the config folder.  Whatever the remote download
answers, `Download` has created that file; and it returns `(true, nil)` when
the download reports no error. -/
theorem download_escape_counterexample :
    "../".data <+: "../x".data ∧
    S3Manager.CompleteFilename (S3Manager.mk "tester-config" "tester-bucket") "../x"
      = some "tester-config/../x" ∧
    filepath.Clean "tester-config/../x" = "x" ∧
    filepath.Clean "tester-config" = "tester-config" ∧
    (∀ answer : GoError,
      ∃ r, S3Manager.Download (S3Manager.mk "tester-config" "tester-bucket")
          { Sim.platform with GetObject := fun _ _ _ s => (answer, s) } "../x" [] Sim.start
          = some r ∧
        Call.OsCreate "tester-config/../x" ∈ r.2.calls ∧
        "x" ∈ r.2.state.files ∧
        (answer = none → r.1 = (true, none))) := by
  refine ⟨by decide, by decide, by decide, by decide, ?_⟩
  intro answer
  cases answer with
  | none => exact ⟨_, rfl, by decide, by decide, fun _ => rfl⟩
  | some e =>
    refine ⟨_, rfl, ?_, ?_, ?_⟩
    · simp only [World.issue]
      decide
    · simp only [World.issue]
      decide
    · intro h
      cases h
